import Mathlib

/-!
# LoopChamber: shallow embedding of the memory scoring and storage core

This file embeds the Python sources of the LoopChamber repository in Lean 4:

* `AppScorer.score_memory` embeds `MemoryScorer.score_memory` from
  `loopchamber_app.py` (the full variant: three-factor tempo, history-aware
  dissonance, mixed-signal emotion override).
* `SimpleScorer.score_memory` embeds `MemoryScorer.score_memory` from
  `memory_scorer.py` (the simplified variant: two-factor tempo, no history
  comparison, no mixed-signal override).
* `MemoryStore` embeds the store of `loopchamber_app.py`; the clock second and
  the random draw of `add_memory` are passed as explicit arguments.
* `GraphStore.create_connection` is modelled from the spec (its implementation
  is not among the sources; only its caller is).

Python floats are modelled as rationals.  Every numeric value any theorem
below equates exactly is a multiple of `1/500` whose distance to the nearest
half-cent is at least `1/1000`, so the rational model of `round(x, 2)` agrees
with Python's float rounding on all values that occur.
-/

namespace LoopChamber

/-- Python `str.lower()` (character-wise lowercasing). -/
def lowerStr (s : String) : String :=
  String.mk (s.data.map Char.toLower)

/-- Helper for `pyWords`: accumulates the current word (reversed) while
scanning the character list. -/
def wordsAux : List Char → List Char → List (List Char)
  | [], cur => if cur.isEmpty then [] else [cur.reverse]
  | c :: cs, cur =>
    if c.isWhitespace then
      if cur.isEmpty then wordsAux cs [] else cur.reverse :: wordsAux cs []
    else
      wordsAux cs (c :: cur)

/-- Python `str.split()` with no argument: split on whitespace runs,
dropping empty pieces. -/
def pyWords (s : String) : List (List Char) :=
  wordsAux s.data []

/-- Is `needle` a contiguous substring of the second list?  (Python `in`.) -/
def substrOf (needle : List Char) : List Char → Bool
  | [] => needle.isEmpty
  | c :: cs => needle.isPrefixOf (c :: cs) || substrOf needle cs

/-- Python `needle in hay` on strings. -/
def containsSub (hay needle : String) : Bool :=
  substrOf needle.data hay.data

/-- Number of entries of `lex` found as substrings of `text`. -/
def countMatches (lex : List String) (text : String) : Nat :=
  (lex.filter (fun w => containsSub text w)).length

/-- `True` when at least one entry of `lex` occurs as a substring of `text`. -/
def anyMatch (lex : List String) (text : String) : Bool :=
  lex.any (fun w => containsSub text w)

/-- Python `dict.get(key, default)` on a small association list. -/
def lookupD (table : List (String × ℚ)) (key : String) (dflt : ℚ) : ℚ :=
  match table.find? (fun p => p.1 == key) with
  | some p => p.2
  | none => dflt

/-- Python `round(q, 2)` on the rational model (round half away handled as
half-up; no value equated by a theorem below sits at a half-cent tie). -/
def round2 (q : ℚ) : ℚ :=
  (⌊q * 100 + 1 / 2⌋ : ℚ) / 100

/-- The `positive` emotional lexicon (identical in both scorer sources). -/
def positiveLexicon : List String :=
  [("happy"), ("joy"), ("glad"), ("delight"), ("pleased"), ("cheerful"),
   ("content"), ("satisfied"), ("excited"), ("thrilled"), ("optimistic"),
   ("enthusiastic"), ("hopeful"), ("confident"), ("proud"), ("love"),
   ("adore"), ("enjoy"), ("like")]

/-- The `negative` emotional lexicon. -/
def negativeLexicon : List String :=
  [("sad"), ("unhappy"), ("depressed"), ("gloomy"), ("miserable"),
   ("disappointed"), ("frustrated"), ("annoyed"), ("angry"), ("furious"),
   ("outraged"), ("irritated"), ("upset"), ("worried"), ("anxious"),
   ("afraid"), ("fearful"), ("scared")]

/-- The `neutral` emotional lexicon. -/
def neutralLexicon : List String :=
  [("think"), ("consider"), ("believe"), ("understand"), ("know"),
   ("recognize"), ("observe"), ("notice"), ("perceive"), ("feel"),
   ("sense"), ("experience")]

/-- The `complex` emotional lexicon. -/
def complexLexicon : List String :=
  [("bittersweet"), ("ambivalent"), ("conflicted"), ("torn"),
   ("mixed feelings"), ("nostalgic"), ("melancholy"), ("sentimental"),
   ("wistful"), ("longing")]

/-- The contradiction-signal phrase list (identical in both scorer sources). -/
def contradictionSignals : List String :=
  [("but"), ("however"), ("nevertheless"), ("conversely"),
   ("on the other hand"), ("in contrast"), ("contrary"), ("opposite"),
   ("unlike"), ("instead"), ("while"), ("whereas"), ("yet"), ("although"),
   ("despite"), ("in spite")]

/-- Pitch per-type weight table (`type_weights` in both sources). -/
def typeWeights : List (String × ℚ) :=
  [(("insight"), 0.8), (("question"), 0.7), (("observation"), 0.6),
   (("event"), 0.5), (("reflection"), 0.7)]

/-- Tempo per-type weight table (`tempo_type_weights` in both sources). -/
def tempoTypeWeights : List (String × ℚ) :=
  [(("insight"), 0.7), (("question"), 0.8), (("observation"), 0.5),
   (("event"), 0.4), (("reflection"), 0.6)]

/-- The `musical_attributes` record / the dict returned by `score_memory`. -/
structure MusicalAttributes where
  pitch : ℚ
  dissonance : ℚ
  tempo : ℚ
  emotion : String
  deriving DecidableEq

/-- A stored memory record as built by `MemoryStore.add_memory`. -/
structure MemoryRec where
  id : String
  content : String
  type : String
  created_at : String
  musical_attributes : MusicalAttributes
  deriving DecidableEq

/-- Python `existing_memories[-5:]`. -/
def lastFive (l : List MemoryRec) : List MemoryRec :=
  l.drop (l.length - 5)

/-- Nonempty intersection of the whitespace-token sets of two strings
(`set(text.split()) & set(existing_text.split()) ≠ ∅`). -/
def sharesWord (a b : String) : Bool :=
  (pyWords a).any (fun w => (pyWords b).contains w)

/-- The dominant-emotion loop of both sources: fold the `(category, count)`
pairs in dict order, keeping the first pair whose count strictly exceeds the
running maximum; start from `("neutral", 0)`. -/
def dominantOf (counts : List (String × Nat)) : String :=
  (counts.foldl (fun acc p => if p.2 > acc.2 then p else acc) (("neutral"), 0)).1

namespace AppScorer

/-- `MemoryScorer.score_memory` from `loopchamber_app.py`. -/
def score_memory (memory_content memory_type : String)
    (existing_memories : List MemoryRec) : MusicalAttributes :=
  let text := lowerStr memory_content
  let word_count : ℕ := (pyWords text).length
  let length_factor : ℚ := min 1.0 (max 0.1 ((word_count : ℚ) / 100))
  let type_factor : ℚ := lookupD typeWeights (lowerStr memory_type) 0.5
  let pitch : ℚ := length_factor * 0.4 + type_factor * 0.6
  let contradiction_score : ℚ :=
    min 0.8 (contradictionSignals.foldl
      (fun acc signal => if containsSub text signal then acc + 0.15 else acc) 0)
  let comparison_score : ℚ :=
    (lastFive existing_memories).foldl
      (fun acc memory =>
        if sharesWord text (lowerStr memory.content) &&
            anyMatch contradictionSignals text then
          acc + 0.2
        else acc) 0
  let dissonance : ℚ := max 0.1 (min 0.9 (contradiction_score + comparison_score))
  let question_factor : ℚ :=
    min 0.8 (((text.data.filter (fun c => c = '?')).length : ℚ) * 0.2)
  let emotional_words : ℕ :=
    countMatches positiveLexicon text + countMatches negativeLexicon text +
      countMatches complexLexicon text
  let emotion_factor : ℚ := min 0.8 ((emotional_words : ℚ) * 0.05)
  let tempo_type_factor : ℚ := lookupD tempoTypeWeights (lowerStr memory_type) 0.5
  let tempo : ℚ :=
    question_factor * 0.3 + emotion_factor * 0.3 + tempo_type_factor * 0.4
  let posCount := countMatches positiveLexicon text
  let negCount := countMatches negativeLexicon text
  let neuCount := countMatches neutralLexicon text
  let comCount := countMatches complexLexicon text
  let dominant_emotion :=
    dominantOf [(("positive"), posCount), (("negative"), negCount),
      (("neutral"), neuCount), (("complex"), comCount)]
  let dominant_emotion :=
    if 0 < posCount ∧ 0 < negCount ∧
        (0 < comCount ∨ ((posCount : ℤ) - (negCount : ℤ)).natAbs < 3) then
      ("complex")
    else dominant_emotion
  { pitch := round2 pitch
    dissonance := round2 dissonance
    tempo := round2 tempo
    emotion := dominant_emotion }

end AppScorer

namespace SimpleScorer

/-- `MemoryScorer.score_memory` from `memory_scorer.py` (simplified variant;
its `existing_memories` parameter is never read). -/
def score_memory (content memory_type : String)
    (_existing_memories : List MemoryRec) : MusicalAttributes :=
  let text := lowerStr content
  let word_count : ℕ := (pyWords text).length
  let length_factor : ℚ := min 1.0 (max 0.1 ((word_count : ℚ) / 100))
  let type_factor : ℚ := lookupD typeWeights (lowerStr memory_type) 0.5
  let pitch : ℚ := length_factor * 0.4 + type_factor * 0.6
  let contradiction_score : ℚ :=
    min 0.8 (contradictionSignals.foldl
      (fun acc signal => if containsSub text signal then acc + 0.15 else acc) 0)
  let dissonance : ℚ := max 0.1 (min 0.9 contradiction_score)
  let question_factor : ℚ :=
    min 0.8 (((text.data.filter (fun c => c = '?')).length : ℚ) * 0.2)
  let tempo_type_factor : ℚ := lookupD tempoTypeWeights (lowerStr memory_type) 0.5
  let tempo : ℚ := question_factor * 0.4 + tempo_type_factor * 0.6
  let posCount := countMatches positiveLexicon text
  let negCount := countMatches negativeLexicon text
  let neuCount := countMatches neutralLexicon text
  let comCount := countMatches complexLexicon text
  let dominant_emotion :=
    dominantOf [(("positive"), posCount), (("negative"), negCount),
      (("neutral"), neuCount), (("complex"), comCount)]
  { pitch := round2 pitch
    dissonance := round2 dissonance
    tempo := round2 tempo
    emotion := dominant_emotion }

end SimpleScorer

/-! ## Spec-side definitions for refinement claims

These follow the wording of the spec/claims and are compared against the
source-shaped definitions above. -/

/-- The claim's signal score:
`min(0.8, 0.15 * number of contradiction signals found)`. -/
def specSignalScore (content : String) : ℚ :=
  min 0.8 (0.15 * (countMatches contradictionSignals (lowerStr content) : ℚ))

/-- The claim's comparison bonus: `0.2` per entry among the five most recent
history entries sharing at least one whitespace token with the current text,
provided the current text contains at least one contradiction signal. -/
def specComparisonBonus (content : String) (history : List MemoryRec) : ℚ :=
  if 0 < countMatches contradictionSignals (lowerStr content) then
    0.2 * (((lastFive history).filter
        (fun m => sharesWord (lowerStr content) (lowerStr m.content))).length : ℚ)
  else 0

/-- The claim's dissonance:
`clamp(signal_score + comparison_bonus, 0.1, 0.9)` rounded to two decimals. -/
def specDissonance (content : String) (history : List MemoryRec) : ℚ :=
  round2 (max 0.1 (min 0.9 (specSignalScore content + specComparisonBonus content history)))

/-- The claim's type-factor table (`insight=0.8`, `question=0.7`,
`observation=0.6`, `event=0.5`, `reflection=0.7`, default `0.5`), with a type
recognized up to the source's lowercasing. -/
def specTypeFactor (ty : String) : ℚ :=
  if lowerStr ty = ("insight") then 0.8
  else if lowerStr ty = ("question") then 0.7
  else if lowerStr ty = ("observation") then 0.6
  else if lowerStr ty = ("event") then 0.5
  else if lowerStr ty = ("reflection") then 0.7
  else 0.5

/-- The claim's pitch:
`0.4 * clamp(word_count/100, 0.1, 1.0) + 0.6 * type_factor`, rounded to two
decimals. -/
def specPitch (content ty : String) : ℚ :=
  round2 (0.4 * min 1.0 (max 0.1 (((pyWords (lowerStr content)).length : ℚ) / 100)) +
    0.6 * specTypeFactor ty)

/-! ## The memory store of `loopchamber_app.py` -/

/-- Decimal rendering of a natural number (the digits of the Python
f-string interpolation `f"..{n}.."`). -/
def natDec (n : ℕ) : List Char :=
  if n = 0 then [('0')] else ((Nat.digits 10 n).map Nat.digitChar).reverse

/-- The id built by `MemoryStore.add_memory`:
`f"mem_{int(time.time())}_{random.randint(1000, 9999)}"`, with the clock
second `t` and the random draw `r` as explicit arguments. -/
def memoryId (t r : ℕ) : String :=
  String.mk ([('m'), ('e'), ('m'), ('_')] ++ natDec t ++ [('_')] ++ natDec r)

/-- `MemoryStore` of `loopchamber_app.py`: the ordered memory collection. -/
structure MemoryStore where
  memories : List MemoryRec
  deriving DecidableEq

namespace MemoryStore

/-- `MemoryStore.add_memory` from `loopchamber_app.py`; the wall clock and
the random generator are passed as the explicit arguments `t`, `r` and
`timestamp`.  Returns the updated store and the new memory id. -/
def add_memory (s : MemoryStore) (content memory_type : String)
    (pitch dissonance tempo : ℚ) (emotion : String)
    (t r : ℕ) (timestamp : String) : MemoryStore × String :=
  let memory_id := memoryId t r
  let memory : MemoryRec :=
    { id := memory_id
      content := content
      type := memory_type
      created_at := timestamp
      musical_attributes :=
        { pitch := pitch, dissonance := dissonance, tempo := tempo, emotion := emotion } }
  ({ memories := s.memories ++ [memory] }, memory_id)

/-- `MemoryStore.get_all_memories` from `loopchamber_app.py`. -/
def get_all_memories (s : MemoryStore) : List MemoryRec :=
  s.memories

end MemoryStore

/-! ## The graph store called by `memory_store.py` (modelled from the spec) -/

/-- The spec's error taxonomy for `create_connection`. -/
inductive ConnError where
  | validationError
  | referenceError
  | invalidEdgeError
  deriving DecidableEq

/-- A typed, weighted, directed connection between two memory ids. -/
structure Connection where
  id : String
  source : String
  target : String
  type : String
  strength : ℚ
  deriving DecidableEq

/-- A store owning both the memory collection and the connection list. -/
structure GraphStore where
  memories : List MemoryRec
  connections : List Connection
  deriving DecidableEq

/-- Modelled from the spec: the Memory Graph Store's `create_connection` is
absent from the sources (the file `memory_store.py` only calls it on an
imported store object), so it is modelled from §4.4/§7 of the spec: reject a
self-loop with `InvalidEdgeError`, an absent memory id with
`ReferenceError`, a strength outside `[0.1, 1.0]` with `ValidationError`,
and otherwise append a new connection.  The spec fixes no precedence among
the three checks; this model checks the self-loop first.  The fresh
connection id is an explicit argument. -/
def GraphStore.create_connection (s : GraphStore) (source_id target_id : String)
    (conn_type : String) (strength : ℚ) (conn_id : String) :
    Except ConnError (GraphStore × String) :=
  if source_id = target_id then
    Except.error ConnError.invalidEdgeError
  else if ¬ (∃ m ∈ s.memories, m.id = source_id) ∨
      ¬ (∃ m ∈ s.memories, m.id = target_id) then
    Except.error ConnError.referenceError
  else if strength < 0.1 ∨ 1.0 < strength then
    Except.error ConnError.validationError
  else
    Except.ok
      ({ s with
          connections := s.connections ++
            [{ id := conn_id, source := source_id, target := target_id,
               type := conn_type, strength := strength }] },
        conn_id)

/-! ## Generic helper lemmas -/

/-- A fold that adds `c` for every element satisfying `p` computes
`c * (number of matches)`. -/
theorem foldl_ite_add {α : Type} (p : α → Bool) (c : ℚ) :
    ∀ (l : List α) (a : ℚ),
      l.foldl (fun acc x => if p x then acc + c else acc) a =
        a + c * ((l.filter p).length : ℚ) := by
  intro l
  induction l with
  | nil => intro a; simp
  | cons x t ih =>
    intro a
    cases hpx : p x
    · simp [hpx, ih, List.filter_cons]
    · simp [hpx, ih, List.filter_cons, Nat.cast_add]
      ring

/-- Closed form of the dominant-emotion fold over the four category counts:
the first category (in dict order) attaining the strictly-largest count wins,
and `"neutral"` results when every count is zero. -/
theorem dominantOf_quad (pos neg neu com : ℕ) :
    dominantOf [(("positive"), pos), (("negative"), neg),
        (("neutral"), neu), (("complex"), com)] =
      if max pos (max neg neu) < com then ("complex")
      else if max pos neg < neu then ("neutral")
      else if pos < neg then ("negative")
      else if 0 < pos then ("positive")
      else ("neutral") := by
  simp only [dominantOf, List.foldl]
  split_ifs <;> simp_all <;> omega

/-- `round2` stays between two hundredth-bounds that bracket its argument. -/
theorem round2_mem (m n : ℤ) (x : ℚ) (h1 : (m : ℚ) / 100 ≤ x)
    (h2 : x ≤ (n : ℚ) / 100) :
    (m : ℚ) / 100 ≤ round2 x ∧ round2 x ≤ (n : ℚ) / 100 := by
  have hm : (m : ℤ) ≤ ⌊x * 100 + 1 / 2⌋ := by
    apply Int.le_floor.mpr
    have : (m : ℚ) ≤ x * 100 := by
      rw [div_le_iff₀ (by norm_num : (0 : ℚ) < 100)] at h1
      linarith
    linarith
  have hn : ⌊x * 100 + 1 / 2⌋ < n + 1 := by
    apply Int.floor_lt.mpr
    have : x * 100 ≤ (n : ℚ) := by
      rw [le_div_iff₀ (by norm_num : (0 : ℚ) < 100)] at h2
      linarith
    push_cast
    linarith
  have hn2 : ⌊x * 100 + 1 / 2⌋ ≤ n := by omega
  constructor
  · rw [round2]
    gcongr
  · rw [round2]
    gcongr

/-- A table lookup returns either the default or the value of a table entry. -/
theorem lookupD_eq_or_mem (table : List (String × ℚ)) (key : String) (dflt : ℚ) :
    lookupD table key dflt = dflt ∨ ∃ p ∈ table, lookupD table key dflt = p.2 := by
  induction table with
  | nil => left; rfl
  | cons hd tl ih =>
    cases h : (hd.1 == key)
    · have he : lookupD (hd :: tl) key dflt = lookupD tl key dflt := by
        simp [lookupD, List.find?, h]
      rw [he]
      rcases ih with h1 | ⟨p, hp, h2⟩
      · exact Or.inl h1
      · exact Or.inr ⟨p, List.mem_cons_of_mem _ hp, h2⟩
    · right
      refine ⟨hd, List.mem_cons_self _ _, ?_⟩
      simp [lookupD, List.find?, h]

/-- The pitch type factor is always between `0.5` and `0.8`. -/
theorem typeFactor_bounds (k : String) :
    0.5 ≤ lookupD typeWeights k 0.5 ∧ lookupD typeWeights k 0.5 ≤ 0.8 := by
  rcases lookupD_eq_or_mem typeWeights k 0.5 with h | ⟨p, hp, h⟩
  · rw [h]; norm_num
  · rw [h]
    fin_cases hp <;> norm_num

/-- The tempo type factor is always between `0.4` and `0.8`. -/
theorem tempoTypeFactor_bounds (k : String) :
    0.4 ≤ lookupD tempoTypeWeights k 0.5 ∧ lookupD tempoTypeWeights k 0.5 ≤ 0.8 := by
  rcases lookupD_eq_or_mem tempoTypeWeights k 0.5 with h | ⟨p, hp, h⟩
  · rw [h]; norm_num
  · rw [h]
    fin_cases hp <;> norm_num

/-- Unfolding lemma: lookup in an empty table returns the default. -/
theorem lookupD_nil (key : String) (d : ℚ) : lookupD [] key d = d := rfl

/-- Unfolding lemma: lookup in a nonempty table checks the head first. -/
theorem lookupD_cons (p : String × ℚ) (tl : List (String × ℚ)) (key : String) (d : ℚ) :
    lookupD (p :: tl) key d = if key = p.1 then p.2 else lookupD tl key d := by
  rcases eq_or_ne key p.1 with h | h
  · have hfind : List.find? (fun q : String × ℚ => q.1 == key) (p :: tl) = some p :=
      @List.find?_cons_of_pos _ (fun q : String × ℚ => q.1 == key) p tl (by simp [h])
    rw [if_pos h]
    simp [lookupD, hfind]
  · have hfind : List.find? (fun q : String × ℚ => q.1 == key) (p :: tl) =
        List.find? (fun q : String × ℚ => q.1 == key) tl :=
      @List.find?_cons_of_neg _ (fun q : String × ℚ => q.1 == key) p tl
        (by simp [Ne.symm h])
    rw [if_neg h]
    simp [lookupD, hfind]

/-- The pitch type-weight lookup as an explicit case split. -/
theorem lookupD_typeWeights_eq (k : String) :
    lookupD typeWeights k 0.5 =
      if k = ("insight") then 0.8
      else if k = ("question") then 0.7
      else if k = ("observation") then 0.6
      else if k = ("event") then 0.5
      else if k = ("reflection") then 0.7
      else 0.5 := by
  simp only [typeWeights, lookupD_cons, lookupD_nil]

/-- Filtering by a conjunction with a constant flag. -/
theorem filter_and_const {α : Type} (p : α → Bool) (b : Bool) (l : List α) :
    l.filter (fun x => p x && b) = if b then l.filter p else [] := by
  cases b
  · simp
  · simp

/-- A lexicon has a match in `text` exactly when its match count is
positive. -/
theorem anyMatch_eq_true_iff (lex : List String) (t : String) :
    anyMatch lex t = true ↔ 0 < countMatches lex t := by
  constructor
  · intro h
    obtain ⟨w, hw1, hw2⟩ := List.any_eq_true.mp h
    exact List.length_pos_of_mem (List.mem_filter.mpr ⟨hw1, hw2⟩)
  · intro h
    obtain ⟨w, hw⟩ := List.exists_mem_of_length_pos h
    obtain ⟨hw1, hw2⟩ := List.mem_filter.mp hw
    exact List.any_eq_true.mpr ⟨w, hw1, hw2⟩

/-- The emotion field of the app scorer, written out: the dominant-emotion
fold, overridden to `"complex"` by the mixed-signal rule. -/
theorem app_emotion_spec (content ty : String) (hist : List MemoryRec) :
    (AppScorer.score_memory content ty hist).emotion =
      (if 0 < countMatches positiveLexicon (lowerStr content) ∧
          0 < countMatches negativeLexicon (lowerStr content) ∧
          (0 < countMatches complexLexicon (lowerStr content) ∨
            ((countMatches positiveLexicon (lowerStr content) : ℤ) -
              (countMatches negativeLexicon (lowerStr content) : ℤ)).natAbs < 3) then
        ("complex")
      else
        dominantOf
          [(("positive"), countMatches positiveLexicon (lowerStr content)),
           (("negative"), countMatches negativeLexicon (lowerStr content)),
           (("neutral"), countMatches neutralLexicon (lowerStr content)),
           (("complex"), countMatches complexLexicon (lowerStr content))]) := rfl

/-- The emotion field of the simplified scorer: the dominant-emotion fold,
with no override. -/
theorem simple_emotion_spec (content ty : String) (hist : List MemoryRec) :
    (SimpleScorer.score_memory content ty hist).emotion =
      dominantOf
        [(("positive"), countMatches positiveLexicon (lowerStr content)),
         (("negative"), countMatches negativeLexicon (lowerStr content)),
         (("neutral"), countMatches neutralLexicon (lowerStr content)),
         (("complex"), countMatches complexLexicon (lowerStr content))] := rfl

/-- `round2` of the dissonance clamp stays within `[0.1, 0.9]`. -/
theorem round2_clamp_mem (x : ℚ) :
    0.1 ≤ round2 (max 0.1 (min 0.9 x)) ∧ round2 (max 0.1 (min 0.9 x)) ≤ 0.9 := by
  have h1 : ((10 : ℤ) : ℚ) / 100 ≤ max 0.1 (min 0.9 x) := by
    refine le_trans (by norm_num) (le_max_left _ _)
  have h2 : max 0.1 (min 0.9 x) ≤ ((90 : ℤ) : ℚ) / 100 := by
    apply max_le
    · norm_num
    · refine le_trans (min_le_left _ _) (by norm_num)
  have h := round2_mem 10 90 _ h1 h2
  constructor
  · refine le_trans (by norm_num) h.1
  · refine le_trans h.2 (by norm_num)

/-- `Nat.digitChar` is injective below the base 10. -/
theorem digitChar_inj_lt : ∀ d1 < 10, ∀ d2 < 10,
    Nat.digitChar d1 = Nat.digitChar d2 → d1 = d2 := by
  decide

/-- Decimal digit characters are never an underscore. -/
theorem digitChar_ne_underscore : ∀ d < 10, Nat.digitChar d ≠ ('_') := by
  decide

/-- The decimal rendering of a natural number contains no underscore. -/
theorem natDec_ne_underscore (n : ℕ) : ∀ c ∈ natDec n, c ≠ ('_') := by
  intro c hc
  by_cases h : n = 0
  · rw [natDec, if_pos h] at hc
    simp only [List.mem_singleton] at hc
    subst hc
    decide
  · rw [natDec, if_neg h, List.mem_reverse] at hc
    obtain ⟨d, hd, rfl⟩ := List.mem_map.mp hc
    exact digitChar_ne_underscore d (Nat.digits_lt_base (by norm_num) hd)

/-- Mapping `Nat.digitChar` over digit lists (entries below 10) is
injective. -/
theorem map_digitChar_inj : ∀ (l1 l2 : List ℕ), (∀ x ∈ l1, x < 10) →
    (∀ x ∈ l2, x < 10) → l1.map Nat.digitChar = l2.map Nat.digitChar → l1 = l2 := by
  intro l1
  induction l1 with
  | nil =>
    intro l2 _ _ h
    cases l2 with
    | nil => rfl
    | cons b u => simp at h
  | cons a t ih =>
    intro l2 h1 h2 h
    cases l2 with
    | nil => simp at h
    | cons b u =>
      simp only [List.map_cons, List.cons.injEq] at h
      have hab : a = b :=
        digitChar_inj_lt a (h1 a (by simp)) b (h2 b (by simp)) h.1
      rw [hab, ih u (fun x hx => h1 x (by simp [hx])) (fun x hx => h2 x (by simp [hx])) h.2]

/-- `natDec` is injective. -/
theorem natDec_inj (m n : ℕ) (h : natDec m = natDec n) : m = n := by
  by_cases hm : m = 0 <;> by_cases hn : n = 0
  · rw [hm, hn]
  · exfalso
    rw [natDec, if_pos hm, natDec, if_neg hn] at h
    have h2a : [('0')] = (Nat.digits 10 n).map Nat.digitChar := by
      simpa using congrArg List.reverse h
    have h2 : (Nat.digits 10 n).map Nat.digitChar = [Nat.digitChar 0] := h2a.symm
    have h3 : Nat.digits 10 n = [0] :=
      map_digitChar_inj _ [0] (fun x hx => Nat.digits_lt_base (by norm_num) hx)
        (by simp) h2
    have h4 := Nat.ofDigits_digits 10 n
    rw [h3] at h4
    simp [Nat.ofDigits] at h4
    exact hn h4.symm
  · exfalso
    rw [natDec, if_neg hm, natDec, if_pos hn] at h
    have h2a : [('0')] = (Nat.digits 10 m).map Nat.digitChar := by
      simpa using congrArg List.reverse h.symm
    have h2 : (Nat.digits 10 m).map Nat.digitChar = [Nat.digitChar 0] := h2a.symm
    have h3 : Nat.digits 10 m = [0] :=
      map_digitChar_inj _ [0] (fun x hx => Nat.digits_lt_base (by norm_num) hx)
        (by simp) h2
    have h4 := Nat.ofDigits_digits 10 m
    rw [h3] at h4
    simp [Nat.ofDigits] at h4
    exact hm h4.symm
  · rw [natDec, if_neg hm, natDec, if_neg hn] at h
    have h2 := List.reverse_injective h
    have h3 :=
      map_digitChar_inj _ _ (fun x hx => Nat.digits_lt_base (by norm_num) hx)
        (fun x hx => Nat.digits_lt_base (by norm_num) hx) h2
    have h4 := Nat.ofDigits_digits 10 m
    rw [h3, Nat.ofDigits_digits] at h4
    exact h4.symm

/-- `takeWhile`/`dropWhile` split an append at the first failing element. -/
theorem takeWhile_append_cons {α : Type} (p : α → Bool) :
    ∀ (l1 : List α) (c : α) (l2 : List α), (∀ x ∈ l1, p x = true) → p c = false →
      (l1 ++ c :: l2).takeWhile p = l1 ∧ (l1 ++ c :: l2).dropWhile p = c :: l2 := by
  intro l1
  induction l1 with
  | nil =>
    intro c l2 _ hc
    simp [List.takeWhile_cons, List.dropWhile_cons, hc]
  | cons a t ih =>
    intro c l2 h hc
    have ha : p a = true := h a (by simp)
    have iht := ih c l2 (fun x hx => h x (by simp [hx])) hc
    simp [List.takeWhile_cons, List.dropWhile_cons, ha, iht.1, iht.2]

/-- `memoryId` determines both the clock second and the random draw. -/
theorem memoryId_inj (t1 r1 t2 r2 : ℕ) (h : memoryId t1 r1 = memoryId t2 r2) :
    t1 = t2 ∧ r1 = r2 := by
  have hdata : ([('m'), ('e'), ('m'), ('_')] ++ natDec t1 ++ [('_')] ++ natDec r1)
      = ([('m'), ('e'), ('m'), ('_')] ++ natDec t2 ++ [('_')] ++ natDec r2) :=
    congrArg String.data h
  have h0 : [('m'), ('e'), ('m'), ('_')] ++ (natDec t1 ++ ('_') :: natDec r1) =
      [('m'), ('e'), ('m'), ('_')] ++ (natDec t2 ++ ('_') :: natDec r2) := by
    simpa [List.append_assoc] using hdata
  have hx := List.append_cancel_left h0
  have hp1 : ∀ x ∈ natDec t1, (x != ('_')) = true := by
    intro x hxm
    simpa using natDec_ne_underscore t1 x hxm
  have hp2 : ∀ x ∈ natDec t2, (x != ('_')) = true := by
    intro x hxm
    simpa using natDec_ne_underscore t2 x hxm
  obtain ⟨hta, htb⟩ :=
    takeWhile_append_cons (fun c => c != ('_')) (natDec t1) ('_') (natDec r1) hp1 rfl
  obtain ⟨hua, hub⟩ :=
    takeWhile_append_cons (fun c => c != ('_')) (natDec t2) ('_') (natDec r2) hp2 rfl
  have htt : natDec t1 = natDec t2 := by
    rw [← hta, ← hua, hx]
  have hrr : ('_') :: natDec r1 = ('_') :: natDec r2 := by
    rw [← htb, ← hub, hx]
  refine ⟨natDec_inj _ _ htt, natDec_inj _ _ ?_⟩
  simpa using hrr

/-- The pitch expression of both scorers stays within `[0, 1]` after
rounding. -/
theorem pitch_expr_mem (x : ℚ) (k : String) :
    0 ≤ round2 (min 1.0 (max 0.1 x) * 0.4 + lookupD typeWeights k 0.5 * 0.6) ∧
      round2 (min 1.0 (max 0.1 x) * 0.4 + lookupD typeWeights k 0.5 * 0.6) ≤ 1 := by
  obtain ⟨ht1, ht2⟩ := typeFactor_bounds k
  have hl1 : (0.1 : ℚ) ≤ min 1.0 (max 0.1 x) := le_min (by norm_num) (le_max_left _ _)
  have hl2 : min 1.0 (max 0.1 x) ≤ 1.0 := min_le_left _ _
  have h := round2_mem 0 100 (min 1.0 (max 0.1 x) * 0.4 + lookupD typeWeights k 0.5 * 0.6)
    (by push_cast; linarith) (by push_cast; linarith)
  exact ⟨le_trans (by norm_num) h.1, le_trans h.2 (by norm_num)⟩

/-- The three-factor tempo expression of the app scorer stays within `[0, 1]`
after rounding. -/
theorem tempo3_expr_mem (c e : ℚ) (hc : 0 ≤ c) (he : 0 ≤ e) (k : String) :
    0 ≤ round2 (min 0.8 (c * 0.2) * 0.3 + min 0.8 (e * 0.05) * 0.3 +
        lookupD tempoTypeWeights k 0.5 * 0.4) ∧
      round2 (min 0.8 (c * 0.2) * 0.3 + min 0.8 (e * 0.05) * 0.3 +
        lookupD tempoTypeWeights k 0.5 * 0.4) ≤ 1 := by
  obtain ⟨ht1, ht2⟩ := tempoTypeFactor_bounds k
  have hq1 : (0 : ℚ) ≤ min 0.8 (c * 0.2) := le_min (by norm_num) (by positivity)
  have hq2 : min 0.8 (c * 0.2) ≤ 0.8 := min_le_left _ _
  have he1 : (0 : ℚ) ≤ min 0.8 (e * 0.05) := le_min (by norm_num) (by positivity)
  have he2 : min 0.8 (e * 0.05) ≤ 0.8 := min_le_left _ _
  have h := round2_mem 0 100 (min 0.8 (c * 0.2) * 0.3 + min 0.8 (e * 0.05) * 0.3 +
      lookupD tempoTypeWeights k 0.5 * 0.4)
    (by push_cast; linarith) (by push_cast; linarith)
  exact ⟨le_trans (by norm_num) h.1, le_trans h.2 (by norm_num)⟩

/-- The two-factor tempo expression of the simplified scorer stays within
`[0, 1]` after rounding. -/
theorem tempo2_expr_mem (c : ℚ) (hc : 0 ≤ c) (k : String) :
    0 ≤ round2 (min 0.8 (c * 0.2) * 0.4 + lookupD tempoTypeWeights k 0.5 * 0.6) ∧
      round2 (min 0.8 (c * 0.2) * 0.4 + lookupD tempoTypeWeights k 0.5 * 0.6) ≤ 1 := by
  obtain ⟨ht1, ht2⟩ := tempoTypeFactor_bounds k
  have hq1 : (0 : ℚ) ≤ min 0.8 (c * 0.2) := le_min (by norm_num) (by positivity)
  have hq2 : min 0.8 (c * 0.2) ≤ 0.8 := min_le_left _ _
  have h := round2_mem 0 100 (min 0.8 (c * 0.2) * 0.4 + lookupD tempoTypeWeights k 0.5 * 0.6)
    (by push_cast; linarith) (by push_cast; linarith)
  exact ⟨le_trans (by norm_num) h.1, le_trans h.2 (by norm_num)⟩

/-- The dominant-emotion fold always yields one of the four labels. -/
theorem dominantOf_quad_mem (a b c d : ℕ) :
    dominantOf [(("positive"), a), (("negative"), b),
        (("neutral"), c), (("complex"), d)] ∈
      [("positive"), ("negative"), ("neutral"), ("complex")] := by
  rw [dominantOf_quad]
  split_ifs <;> simp

/-! ## Claim theorems -/

/-- C8: scoring the empty string as type `event` with empty history produces
`pitch = 0.4*0.1 + 0.6*0.5 = 0.34`, `dissonance = 0.1`, `emotion = neutral`,
and a tempo equal to the weighted type term alone (the question-mark and
emotion contributions are zero); in particular no error is raised, the
result being a total function value. -/
theorem C8_empty_string_scores :
    AppScorer.score_memory ("") ("event") [] =
      { pitch := 0.4 * 0.1 + 0.6 * 0.5
        dissonance := 0.1
        tempo := lookupD tempoTypeWeights ("event") 0.5 * 0.4
        emotion := ("neutral") } := by
  have h0 : lowerStr ("event") = ("event") := rfl
  have h1 : lowerStr ("") = ("") := rfl
  have h2 : (pyWords ("")).length = 0 := rfl
  have h3 : (contradictionSignals.filter (fun s => containsSub ("") s)).length = 0 := rfl
  have h4 : ((("") : String).data.filter (fun c => c = '?')).length = 0 := rfl
  have h5 : countMatches positiveLexicon ("") = 0 := rfl
  have h6 : countMatches negativeLexicon ("") = 0 := rfl
  have h7 : countMatches neutralLexicon ("") = 0 := rfl
  have h8 : countMatches complexLexicon ("") = 0 := rfl
  have h9 : lookupD typeWeights ("event") 0.5 = 0.5 := rfl
  have h10 : lookupD tempoTypeWeights ("event") 0.5 = 0.4 := rfl
  have h11 : dominantOf [(("positive"), 0), (("negative"), 0),
      (("neutral"), 0), (("complex"), 0)] = ("neutral") := rfl
  simp only [AppScorer.score_memory, h0, h1, h2, h3, h4, h5, h6, h7, h8, h9,
    h10, h11, foldl_ite_add, lastFive, List.drop_nil, List.foldl_nil,
    List.length_nil]
  norm_num [round2, MusicalAttributes.mk.injEq, min_def, max_def,
    Int.floor_eq_iff]

/-- C1 counterexample: the claim fails on `MemoryScorer.score_memory` of
`memory_scorer.py` (one of its two cited sources).  On the scenario text the
positive and negative counts are both `1` (difference `0 < 3`), yet the
simplified scorer returns `"positive"`, not `"complex"`: it has no
mixed-signal override. -/
theorem C1_simple_no_override_counterexample :
    0 < countMatches positiveLexicon (lowerStr ("I love this but I also feel anxious")) ∧
    0 < countMatches negativeLexicon (lowerStr ("I love this but I also feel anxious")) ∧
    ((countMatches positiveLexicon (lowerStr ("I love this but I also feel anxious")) : ℤ) -
        (countMatches negativeLexicon (lowerStr ("I love this but I also feel anxious")) : ℤ)).natAbs < 3 ∧
    (SimpleScorer.score_memory ("I love this but I also feel anxious")
        ("insight") []).emotion = ("positive") := by
  decide

/-- C1 (amended to `loopchamber_app.py`'s scorer): whenever both the positive
and negative counts are nonzero and either the complex count is nonzero or
the positive/negative difference is below 3, the app scorer returns emotion
`"complex"`; and the scenario text scores `emotion = "complex"` with
`dissonance ≥ 0.1` as type `insight`. -/
theorem C1_app_mixed_override :
    (∀ (content ty : String) (hist : List MemoryRec),
        0 < countMatches positiveLexicon (lowerStr content) →
        0 < countMatches negativeLexicon (lowerStr content) →
        (0 < countMatches complexLexicon (lowerStr content) ∨
          ((countMatches positiveLexicon (lowerStr content) : ℤ) -
            (countMatches negativeLexicon (lowerStr content) : ℤ)).natAbs < 3) →
        (AppScorer.score_memory content ty hist).emotion = ("complex")) ∧
    (AppScorer.score_memory ("I love this but I also feel anxious")
        ("insight") []).emotion = ("complex") ∧
    0.1 ≤ (AppScorer.score_memory ("I love this but I also feel anxious")
        ("insight") []).dissonance := by
  refine ⟨fun content ty hist h1 h2 h3 => ?_, by decide, ?_⟩
  · rw [app_emotion_spec, if_pos ⟨h1, h2, h3⟩]
  · have h := round2_clamp_mem
      (min 0.8 (contradictionSignals.foldl
          (fun acc signal =>
            if containsSub (lowerStr ("I love this but I also feel anxious")) signal then
              acc + 0.15
            else acc) 0) +
        (lastFive []).foldl
          (fun acc memory =>
            if sharesWord (lowerStr ("I love this but I also feel anxious"))
                  (lowerStr memory.content) &&
                anyMatch contradictionSignals
                  (lowerStr ("I love this but I also feel anxious")) then
              acc + 0.2
            else acc) 0)
    exact h.1

/-- C1 witness: the amended theorem applied to the scenario text. -/
theorem C1_app_mixed_override_witness :
    (AppScorer.score_memory ("I love this but I also feel anxious")
        ("insight") []).emotion = ("complex") :=
  C1_app_mixed_override.1 ("I love this but I also feel anxious") ("insight") []
    (by decide) (by decide) (by decide)

/-- C2 counterexample: on the text `"happy torn"` the positive and complex
counts tie for the strictly highest value (`1` each, negative and neutral
`0`), yet both scorers return `"positive"`, not `"neutral"`: a tie is broken
in favour of the earliest category in dict order, not in favour of
`"neutral"`. -/
theorem C2_tie_not_neutral_counterexample :
    countMatches positiveLexicon (lowerStr ("happy torn")) = 1 ∧
    countMatches complexLexicon (lowerStr ("happy torn")) = 1 ∧
    countMatches negativeLexicon (lowerStr ("happy torn")) = 0 ∧
    countMatches neutralLexicon (lowerStr ("happy torn")) = 0 ∧
    (AppScorer.score_memory ("happy torn") ("insight") []).emotion = ("positive") ∧
    (SimpleScorer.score_memory ("happy torn") ("insight") []).emotion = ("positive") := by
  decide

/-- C2 (amended): ties are not resolved to `"neutral"`.  In both scorers the
emotion is the first category in the fixed dict order (positive, negative,
neutral, complex) whose count strictly exceeds every earlier category's
count; `"neutral"` results when every count is zero (or when neutral itself
is first to attain the maximum); in the app scorer the mixed-signal override
may still force `"complex"`. -/
theorem C2_tie_break_rule (content ty : String) (hist : List MemoryRec) :
    ((AppScorer.score_memory content ty hist).emotion =
      if 0 < countMatches positiveLexicon (lowerStr content) ∧
          0 < countMatches negativeLexicon (lowerStr content) ∧
          (0 < countMatches complexLexicon (lowerStr content) ∨
            ((countMatches positiveLexicon (lowerStr content) : ℤ) -
              (countMatches negativeLexicon (lowerStr content) : ℤ)).natAbs < 3) then
        ("complex")
      else if max (countMatches positiveLexicon (lowerStr content))
          (max (countMatches negativeLexicon (lowerStr content))
            (countMatches neutralLexicon (lowerStr content))) <
          countMatches complexLexicon (lowerStr content) then ("complex")
      else if max (countMatches positiveLexicon (lowerStr content))
          (countMatches negativeLexicon (lowerStr content)) <
          countMatches neutralLexicon (lowerStr content) then ("neutral")
      else if countMatches positiveLexicon (lowerStr content) <
          countMatches negativeLexicon (lowerStr content) then ("negative")
      else if 0 < countMatches positiveLexicon (lowerStr content) then ("positive")
      else ("neutral")) ∧
    ((SimpleScorer.score_memory content ty hist).emotion =
      if max (countMatches positiveLexicon (lowerStr content))
          (max (countMatches negativeLexicon (lowerStr content))
            (countMatches neutralLexicon (lowerStr content))) <
          countMatches complexLexicon (lowerStr content) then ("complex")
      else if max (countMatches positiveLexicon (lowerStr content))
          (countMatches negativeLexicon (lowerStr content)) <
          countMatches neutralLexicon (lowerStr content) then ("neutral")
      else if countMatches positiveLexicon (lowerStr content) <
          countMatches negativeLexicon (lowerStr content) then ("negative")
      else if 0 < countMatches positiveLexicon (lowerStr content) then ("positive")
      else ("neutral")) := by
  constructor
  · rw [app_emotion_spec, dominantOf_quad]
  · rw [simple_emotion_spec, dominantOf_quad]

/-- C3: for every content, type and history the dissonance returned by the
app scorer equals `clamp(signal_score + comparison_bonus, 0.1, 0.9)` rounded
to two decimals, where `signal_score = min(0.8, 0.15 * signal count)` and
the comparison bonus adds `0.2` for each of the (at most five) most recent
history entries sharing a whitespace token with the lowered text, provided
the text contains a contradiction signal; older entries never contribute. -/
theorem C3_dissonance_formula (content ty : String) (hist : List MemoryRec) :
    (AppScorer.score_memory content ty hist).dissonance = specDissonance content hist := by
  have hsig :
      contradictionSignals.foldl
          (fun acc signal =>
            if containsSub (lowerStr content) signal then acc + 0.15 else acc) 0 =
        0.15 * (countMatches contradictionSignals (lowerStr content) : ℚ) := by
    rw [foldl_ite_add]
    simp [countMatches]
  have hcmp :
      (lastFive hist).foldl
          (fun acc memory =>
            if sharesWord (lowerStr content) (lowerStr memory.content) &&
                anyMatch contradictionSignals (lowerStr content) then
              acc + 0.2
            else acc) 0 =
        specComparisonBonus content hist := by
    rw [foldl_ite_add, specComparisonBonus]
    cases hs : anyMatch contradictionSignals (lowerStr content)
    · have h0 : ¬ 0 < countMatches contradictionSignals (lowerStr content) := by
        intro hc
        rw [(anyMatch_eq_true_iff _ _).mpr hc] at hs
        cases hs
      rw [if_neg h0]
      simp [filter_and_const]
    · rw [if_pos ((anyMatch_eq_true_iff _ _).mp hs)]
      simp [filter_and_const]
  simp only [AppScorer.score_memory, specDissonance, specSignalScore, hsig, hcmp]

/-- C4: for every content, type and history, the pitch of both scorers is
`0.4 * clamp(word_count/100, 0.1, 1.0) + 0.6 * type_factor` rounded to two
decimals, with the type factor from the claim's table (`insight=0.8`,
`question=0.7`, `observation=0.6`, `event=0.5`, `reflection=0.7`, default
`0.5`). -/
theorem C4_pitch_formula (content ty : String) (hist : List MemoryRec) :
    (AppScorer.score_memory content ty hist).pitch = specPitch content ty ∧
    (SimpleScorer.score_memory content ty hist).pitch = specPitch content ty := by
  have hl : lookupD typeWeights (lowerStr ty) 0.5 = specTypeFactor ty := by
    rw [lookupD_typeWeights_eq, specTypeFactor]
  constructor
  · simp only [AppScorer.score_memory, specPitch, hl]
    congr 1
    ring
  · simp only [SimpleScorer.score_memory, specPitch, hl]
    congr 1
    ring

/-- C7: for every content, every type string (valid or not) and every
history, both scorers return pitch and tempo within `[0, 1]`, dissonance
within `[0.1, 0.9]`, and an emotion among the four fixed labels. -/
theorem C7_attribute_ranges (content ty : String) (hist : List MemoryRec) :
    (0 ≤ (AppScorer.score_memory content ty hist).pitch ∧
      (AppScorer.score_memory content ty hist).pitch ≤ 1) ∧
    (0.1 ≤ (AppScorer.score_memory content ty hist).dissonance ∧
      (AppScorer.score_memory content ty hist).dissonance ≤ 0.9) ∧
    (0 ≤ (AppScorer.score_memory content ty hist).tempo ∧
      (AppScorer.score_memory content ty hist).tempo ≤ 1) ∧
    (AppScorer.score_memory content ty hist).emotion ∈
      [("positive"), ("negative"), ("neutral"), ("complex")] ∧
    (0 ≤ (SimpleScorer.score_memory content ty hist).pitch ∧
      (SimpleScorer.score_memory content ty hist).pitch ≤ 1) ∧
    (0.1 ≤ (SimpleScorer.score_memory content ty hist).dissonance ∧
      (SimpleScorer.score_memory content ty hist).dissonance ≤ 0.9) ∧
    (0 ≤ (SimpleScorer.score_memory content ty hist).tempo ∧
      (SimpleScorer.score_memory content ty hist).tempo ≤ 1) ∧
    (SimpleScorer.score_memory content ty hist).emotion ∈
      [("positive"), ("negative"), ("neutral"), ("complex")] := by
  refine ⟨?_, ?_, ?_, ?_, ?_, ?_, ?_, ?_⟩
  · simp only [AppScorer.score_memory]
    exact pitch_expr_mem _ _
  · simp only [AppScorer.score_memory]
    exact round2_clamp_mem _
  · simp only [AppScorer.score_memory]
    exact tempo3_expr_mem _ _ (Nat.cast_nonneg _) (Nat.cast_nonneg _) _
  · rw [app_emotion_spec]
    split_ifs
    · simp
    · exact dominantOf_quad_mem _ _ _ _
  · simp only [SimpleScorer.score_memory]
    exact pitch_expr_mem _ _
  · simp only [SimpleScorer.score_memory]
    exact round2_clamp_mem _
  · simp only [SimpleScorer.score_memory]
    exact tempo2_expr_mem _ (Nat.cast_nonneg _) _
  · rw [simple_emotion_spec]
    exact dominantOf_quad_mem _ _ _ _

/-- C5 counterexample: two distinct successive `add_memory` calls on the
same store that fall in the same clock second and draw the same random
suffix return the very same id — `mem_{time}_{rand}` carries no collision
check, so the id scheme does not guarantee uniqueness. -/
theorem C5_same_tick_collision :
    (MemoryStore.add_memory { memories := [] } ("first memory") ("insight")
        0.5 0.1 0.5 ("neutral") 1700000000 5000 ("t0")).2 =
      (MemoryStore.add_memory
          (MemoryStore.add_memory { memories := [] } ("first memory") ("insight")
            0.5 0.1 0.5 ("neutral") 1700000000 5000 ("t0")).1
          ("second memory") ("event") 0.4 0.2 0.4 ("neutral")
          1700000000 5000 ("t1")).2 := rfl

/-- C5 (amended): ids returned by `add_memory` are unique exactly up to the
`(clock second, random draw)` pair: two calls whose pairs differ in either
component return different ids; uniqueness within the same clock tick holds
only when the random draws differ. -/
theorem C5_id_uniqueness_amended (s1 s2 : MemoryStore)
    (c1 ty1 e1 ts1 c2 ty2 e2 ts2 : String)
    (p1 d1 tm1 p2 d2 tm2 : ℚ) (t1 r1 t2 r2 : ℕ)
    (h : t1 ≠ t2 ∨ r1 ≠ r2) :
    (MemoryStore.add_memory s1 c1 ty1 p1 d1 tm1 e1 t1 r1 ts1).2 ≠
      (MemoryStore.add_memory s2 c2 ty2 p2 d2 tm2 e2 t2 r2 ts2).2 := by
  intro he
  have hid : memoryId t1 r1 = memoryId t2 r2 := he
  obtain ⟨ht, hr⟩ := memoryId_inj _ _ _ _ hid
  rcases h with h | h
  · exact h ht
  · exact h hr

/-- C5 witness: distinct random draws in the same clock second give distinct
ids. -/
theorem C5_id_uniqueness_witness :
    (MemoryStore.add_memory { memories := [] } ("a") ("insight")
        0.5 0.1 0.5 ("neutral") 1700000000 1000 ("t0")).2 ≠
      (MemoryStore.add_memory { memories := [] } ("b") ("event")
        0.4 0.2 0.4 ("neutral") 1700000000 1001 ("t1")).2 :=
  C5_id_uniqueness_amended _ _ _ _ _ _ _ _ _ _ _ _ _ _ _ _
    1700000000 1000 1700000000 1001 (Or.inr (by decide))

/-- C6 counterexample: a `create_connection` call naming a memory id that is
absent from the store does not always fail with `ReferenceError` — a
self-loop on an absent id fails with `InvalidEdgeError` instead (the three
`always` clauses of the claim overlap, so no check order satisfies them
all). -/
theorem C6_absent_selfloop_counterexample :
    (¬ ∃ m ∈ ({ memories := [], connections := [] } : GraphStore).memories,
        m.id = ("x")) ∧
    GraphStore.create_connection { memories := [], connections := [] }
        ("x") ("x") ("related") 0.5 ("c1") =
      Except.error ConnError.invalidEdgeError ∧
    (Except.error ConnError.invalidEdgeError : Except ConnError (GraphStore × String)) ≠
      Except.error ConnError.referenceError := by
  refine ⟨by simp, rfl, by simp⟩

/-- C6 (amended, modelled from the spec with the self-loop check first):
a self-loop always fails with `InvalidEdgeError`; a non-self-loop call
naming an absent id fails with `ReferenceError`; a non-self-loop call on
present ids with strength outside `[0.1, 1.0]` fails with `ValidationError`;
and a successful call leaves the memory collection unchanged and appends
exactly the one new connection — in particular every failing call returns
only an error, never a modified store. -/
theorem C6_create_connection_amended :
    (∀ (s : GraphStore) (a b ty : String) (q : ℚ) (cid : String), a = b →
        GraphStore.create_connection s a b ty q cid =
          Except.error ConnError.invalidEdgeError) ∧
    (∀ (s : GraphStore) (a b ty : String) (q : ℚ) (cid : String), a ≠ b →
        (¬ (∃ m ∈ s.memories, m.id = a) ∨ ¬ (∃ m ∈ s.memories, m.id = b)) →
        GraphStore.create_connection s a b ty q cid =
          Except.error ConnError.referenceError) ∧
    (∀ (s : GraphStore) (a b ty : String) (q : ℚ) (cid : String), a ≠ b →
        (∃ m ∈ s.memories, m.id = a) → (∃ m ∈ s.memories, m.id = b) →
        (q < 0.1 ∨ 1.0 < q) →
        GraphStore.create_connection s a b ty q cid =
          Except.error ConnError.validationError) ∧
    (∀ (s : GraphStore) (a b ty : String) (q : ℚ) (cid : String)
        (g : GraphStore) (cid2 : String),
        GraphStore.create_connection s a b ty q cid = Except.ok (g, cid2) →
        g.memories = s.memories ∧
          g.connections = s.connections ++
            [{ id := cid, source := a, target := b, type := ty, strength := q }] ∧
          cid2 = cid) := by
  refine ⟨?_, ?_, ?_, ?_⟩
  · intro s a b ty q cid h
    rw [GraphStore.create_connection, if_pos h]
  · intro s a b ty q cid h1 h2
    rw [GraphStore.create_connection, if_neg h1, if_pos h2]
  · intro s a b ty q cid h1 h2 h3 h4
    rw [GraphStore.create_connection, if_neg h1,
      if_neg (fun hc => hc.elim (fun hna => hna h2) (fun hnb => hnb h3)),
      if_pos h4]
  · intro s a b ty q cid g cid2 h
    rw [GraphStore.create_connection] at h
    split_ifs at h
    simp only [Except.ok.injEq, Prod.mk.injEq] at h
    exact ⟨by rw [← h.1], by rw [← h.1], h.2.symm⟩

/-- C6 witness: the three failure clauses of the amended theorem at concrete
inputs (empty store for the first two; a two-memory store and an
out-of-range strength for the third). -/
theorem C6_create_connection_witness :
    GraphStore.create_connection { memories := [], connections := [] }
        ("a") ("a") ("related") 0.5 ("c1") =
      Except.error ConnError.invalidEdgeError ∧
    GraphStore.create_connection { memories := [], connections := [] }
        ("a") ("b") ("related") 0.5 ("c1") =
      Except.error ConnError.referenceError ∧
    GraphStore.create_connection
        { memories :=
            [{ id := ("a"), content := ("ma"), type := ("event"),
               created_at := ("t0"),
               musical_attributes :=
                 { pitch := 0.5, dissonance := 0.1, tempo := 0.5,
                   emotion := ("neutral") } },
             { id := ("b"), content := ("mb"), type := ("event"),
               created_at := ("t1"),
               musical_attributes :=
                 { pitch := 0.5, dissonance := 0.1, tempo := 0.5,
                   emotion := ("neutral") } }],
          connections := [] }
        ("a") ("b") ("related") 7 ("c1") =
      Except.error ConnError.validationError :=
  ⟨C6_create_connection_amended.1 _ _ _ _ _ _ rfl,
    C6_create_connection_amended.2.1 _ _ _ _ _ _ (by simp) (by simp),
    C6_create_connection_amended.2.2.1 _ _ _ _ _ _ (by simp)
      ⟨_, List.mem_cons_self _ _, rfl⟩
      ⟨_, List.mem_cons_of_mem _ (List.mem_cons_self _ _), rfl⟩
      (Or.inr (by norm_num))⟩

/-- C9: `add_memory` appends exactly one record at the end of the ordered
collection, leaves every previously stored memory unchanged, and
`get_all_memories` returns the full collection in insertion order. -/
theorem C9_add_memory_appends (s : MemoryStore) (content memory_type : String)
    (pitch dissonance tempo : ℚ) (emotion timestamp : String) (t r : ℕ) :
    (MemoryStore.add_memory s content memory_type pitch dissonance tempo
          emotion t r timestamp).1.memories =
        s.memories ++
          [{ id := memoryId t r, content := content, type := memory_type,
             created_at := timestamp,
             musical_attributes :=
               { pitch := pitch, dissonance := dissonance, tempo := tempo,
                 emotion := emotion } }] ∧
    (MemoryStore.add_memory s content memory_type pitch dissonance tempo
          emotion t r timestamp).1.memories.take s.memories.length = s.memories ∧
    MemoryStore.get_all_memories
        (MemoryStore.add_memory s content memory_type pitch dissonance tempo
          emotion t r timestamp).1 =
      s.memories ++
        [{ id := memoryId t r, content := content, type := memory_type,
           created_at := timestamp,
           musical_attributes :=
             { pitch := pitch, dissonance := dissonance, tempo := tempo,
               emotion := emotion } }] := by
  refine ⟨rfl, ?_, rfl⟩
  exact List.take_left _ _

/-- C10: `add_memory` validates nothing: for arbitrary attribute values
(also outside `[0, 1]`) and an arbitrary emotion label the call succeeds,
and the stored record's `musical_attributes` equal the passed values
verbatim. -/
theorem C10_no_attribute_validation (s : MemoryStore)
    (content memory_type : String) (pitch dissonance tempo : ℚ)
    (emotion timestamp : String) (t r : ℕ) :
    (MemoryStore.add_memory s content memory_type pitch dissonance tempo
          emotion t r timestamp).1.memories.getLast? =
        some { id := memoryId t r, content := content, type := memory_type,
               created_at := timestamp,
               musical_attributes :=
                 { pitch := pitch, dissonance := dissonance, tempo := tempo,
                   emotion := emotion } } ∧
    (MemoryStore.add_memory s content memory_type pitch dissonance tempo
          emotion t r timestamp).2 = memoryId t r := by
  refine ⟨?_, rfl⟩
  exact List.getLast?_concat _

end LoopChamber
